import Mathlib

/-!
Verification of the `drotm` WebAssembly kernel (modified Givens plane rotation)
and its wrapper layer, as shipped in this repository.

The numerical kernel lives in the embedded WebAssembly binary (exports
`c_drotm` and `c_drotm_ndarray`); the JavaScript layer (`lib/module.js`,
`index.mjs`) forwards to it and returns a handle to the second vector.  The
definitions below are a shallow embedding of the disassembled kernel:

- module linear memory is a total map from byte addresses to values, with one
  f64 value held at its (8-aligned) byte address; doubles are modelled as
  exact rationals, so IEEE rounding is not modelled, but every read, write,
  comparison and branch of the kernel is;
- `c_drotm_ndarray` mirrors the wasm body instruction for instruction: the
  `N <= 0` and `flag == -2` guards, the equal-positive-stride fast path
  (which walks a single index for both vectors), the three flag branches,
  the per-branch coefficient loads, and in each iteration both loads before
  both stores, `x` stored first;
- `c_drotm` mirrors the wasm wrapper that derives default offsets from the
  stride sign before tail-calling `c_drotm_ndarray`;
- `moduleMain` / `moduleNdarray` mirror `Module.prototype.main` /
  `Module.prototype.ndarray` from `lib/module.js`, which invoke the exports
  and unconditionally return `yptr`.
-/

/-- Module linear memory: one f64 value per byte address (values at their
8-aligned addresses; doubles modelled as exact rationals). -/
abbrev Mem := Int → ℚ

/-- A store of one f64 value at byte address `a`. -/
def wr (m : Mem) (a : Int) (v : ℚ) : Mem := fun b => if b = a then v else m b

/-- All-zero memory, used to lay out concrete test vectors. -/
def zeroMem : Mem := fun _ => 0

/-- One iteration of the `dflag < 0` (full 2x2 matrix) branch: load `w` from
`ax` and `z` from `ay`, then store `x` and then `y`, exactly as the wasm body
does. -/
def stepNeg (dh11 dh21 dh12 dh22 : ℚ) (ax ay : Int) (m : Mem) : Mem :=
  let w := m ax
  let z := m ay
  wr (wr m ax (w * dh11 + dh12 * z)) ay (w * dh21 + dh22 * z)

/-- One iteration of the `dflag == 0` (unit diagonal) branch. -/
def stepZero (dh21 dh12 : ℚ) (ax ay : Int) (m : Mem) : Mem :=
  let z := m ay
  let w := m ax
  wr (wr m ax (z * dh12 + w)) ay (z + w * dh21)

/-- One iteration of the remaining branch (taken for any `dflag` that is not
negative and not zero): unit off-diagonal formulas. -/
def stepOne (dh11 dh22 : ℚ) (ax ay : Int) (m : Mem) : Mem :=
  let w := m ax
  let z := m ay
  wr (wr m ax (w * dh11 + z)) ay (z * dh22 - w)

/-- The fast-path loop of the wasm kernel: a single element index, advanced by
a single stride, drives both vectors. -/
def loop1 (f : Int → Mem → Mem) (s : Int) : Nat → Int → Mem → Mem
  | 0, _, m => m
  | n + 1, ix, m => loop1 f s n (ix + s) (f ix m)

/-- The general loop of the wasm kernel: separate element indices for `x` and
`y`, advanced by their own strides. -/
def loop2 (f : Int → Int → Mem → Mem) (sx sy : Int) : Nat → Int → Int → Mem → Mem
  | 0, _, _, m => m
  | n + 1, ix, iy, m => loop2 f sx sy n (ix + sx) (iy + sy) (f ix iy m)

/-- The wasm export `c_drotm_ndarray`, transcribed from the disassembled
binary.  Pointers are byte addresses; strides and offsets are in elements and
are scaled by 8 at each access, as the wasm `i32.shl 3` does.  The flag and
the coefficients actually needed by the taken branch are loaded from `param`
before the loop. -/
def c_drotm_ndarray (N xptr sx ox yptr sy oy pptr : Int) (m : Mem) : Mem :=
  let dflag := m pptr
  if N ≤ 0 then m
  else if dflag = -2 then m
  else if sx = sy ∧ 0 < sx then
    if dflag < 0 then
      let dh22 := m (pptr + 32)
      let dh21 := m (pptr + 16)
      let dh12 := m (pptr + 24)
      let dh11 := m (pptr + 8)
      loop1 (fun ix mm => stepNeg dh11 dh21 dh12 dh22 (xptr + 8 * ix) (yptr + 8 * ix) mm)
        sx N.toNat ox m
    else if dflag = 0 then
      let dh21 := m (pptr + 16)
      let dh12 := m (pptr + 24)
      loop1 (fun ix mm => stepZero dh21 dh12 (xptr + 8 * ix) (yptr + 8 * ix) mm)
        sx N.toNat ox m
    else
      let dh22 := m (pptr + 32)
      let dh11 := m (pptr + 8)
      loop1 (fun ix mm => stepOne dh11 dh22 (xptr + 8 * ix) (yptr + 8 * ix) mm)
        sx N.toNat ox m
  else
    if dflag < 0 then
      let dh22 := m (pptr + 32)
      let dh21 := m (pptr + 16)
      let dh12 := m (pptr + 24)
      let dh11 := m (pptr + 8)
      loop2 (fun ix iy mm => stepNeg dh11 dh21 dh12 dh22 (xptr + 8 * ix) (yptr + 8 * iy) mm)
        sx sy N.toNat ox oy m
    else if dflag = 0 then
      let dh21 := m (pptr + 16)
      let dh12 := m (pptr + 24)
      loop2 (fun ix iy mm => stepZero dh21 dh12 (xptr + 8 * ix) (yptr + 8 * iy) mm)
        sx sy N.toNat ox oy m
    else
      let dh22 := m (pptr + 32)
      let dh11 := m (pptr + 8)
      loop2 (fun ix iy mm => stepOne dh11 dh22 (xptr + 8 * ix) (yptr + 8 * iy) mm)
        sx sy N.toNat ox oy m

/-- Default-offset rule of the wasm export `c_drotm`: the wasm `select` picks
`(1 - N) * s` when `s <= 0` and `0` otherwise. -/
def stride2offset (N s : Int) : Int := if s ≤ 0 then (1 - N) * s else 0

/-- The wasm export `c_drotm`: derive default offsets from the stride signs
and tail-call `c_drotm_ndarray`. -/
def c_drotm (N xptr sx yptr sy pptr : Int) (m : Mem) : Mem :=
  c_drotm_ndarray N xptr sx (stride2offset N sx) yptr sy (stride2offset N sy) pptr m

/-- `Module.prototype.main` from `lib/module.js`: invoke the export and return
`yptr` unconditionally. -/
def moduleMain (N xptr sx yptr sy pptr : Int) (m : Mem) : Mem × Int :=
  (c_drotm N xptr sx yptr sy pptr m, yptr)

/-- `Module.prototype.ndarray` from `lib/module.js`: invoke the export and
return `yptr` unconditionally. -/
def moduleNdarray (N xptr sx ox yptr sy oy pptr : Int) (m : Mem) : Mem × Int :=
  (c_drotm_ndarray N xptr sx ox yptr sy oy pptr m, yptr)

/-- Write the elements of a list into memory at consecutive 8-byte slots. -/
def writeList (m : Mem) (base : Int) : List ℚ → Mem
  | [] => m
  | v :: vs => writeList (wr m base v) (base + 8) vs

/-- Read `n` elements from memory at consecutive 8-byte slots. -/
def readList (m : Mem) (base : Int) : Nat → List ℚ
  | 0 => []
  | n + 1 => m base :: readList m (base + 8) n

/-- Result of the array-level `ndarray` form from `index.mjs`: the mutated
vectors, and the value returned to the caller (`return n` returns the second
array). -/
structure RoutineResult where
  xOut : List ℚ
  yOut : List ℚ
  ret : List ℚ
deriving DecidableEq

/-- Modelled from the spec: the array-copying glue of the `ndarray` method of
the routine in `index.mjs` (`arrays2ptrs` together with `strided2object`) is
an external import, not under `src/`.  Following section 6 of the spec, the
collaborators copy `x`, `y` and the five described elements of `param`
(`strided2object(5, param, 1, 0)`) into disjoint regions of module memory,
invoke the `c_drotm_ndarray` export on the resulting pointers, copy the data
back, and return the second array. -/
def routineNdarray (N : Int) (x : List ℚ) (sx ox : Int) (y : List ℚ) (sy oy : Int)
    (p : List ℚ) : RoutineResult :=
  let yBase : Int := 8 * x.length
  let pBase : Int := 8 * (x.length + y.length)
  let m0 := writeList (writeList (writeList zeroMem 0 x) yBase y) pBase (p.take 5)
  let m1 := c_drotm_ndarray N 0 sx ox yBase sy oy pBase m0
  let yO := readList m1 yBase y.length
  { xOut := readList m1 0 x.length, yOut := yO, ret := yO }

/-- Default-offset rule in the words of the spec (section 4.1): `0` when the
stride is nonnegative and `(1 - N) * stride` when it is negative.  This is the
comparison definition for the refinement claim about the simple call form. -/
def stride2offsetSpec (N s : Int) : Int := if s < 0 then (1 - N) * s else 0

/-- Byte address of the `x` element accessed at iteration `i`. -/
def xaddrAt (xptr sx ox : Int) (i : Nat) : Int := xptr + 8 * (ox + (i : Int) * sx)

/-- Byte address of the `y` element accessed at iteration `i`: on the
equal-positive-stride fast path the kernel drives `y` with the `x` index
(starting from `ox`), otherwise with its own index starting from `oy`. -/
def yaddrAt (sx ox yptr sy oy : Int) (i : Nat) : Int :=
  if sx = sy ∧ 0 < sx then yptr + 8 * (ox + (i : Int) * sx)
  else yptr + 8 * (oy + (i : Int) * sy)

/-- Run of the kernel loop for the full-matrix branch, cut off after `k`
iterations (the kernel itself runs it for `N.toNat` iterations). -/
def runNeg (xptr sx ox yptr sy oy pptr : Int) (m : Mem) (k : Nat) : Mem :=
  let dh22 := m (pptr + 32)
  let dh21 := m (pptr + 16)
  let dh12 := m (pptr + 24)
  let dh11 := m (pptr + 8)
  if sx = sy ∧ 0 < sx then
    loop1 (fun ix mm => stepNeg dh11 dh21 dh12 dh22 (xptr + 8 * ix) (yptr + 8 * ix) mm)
      sx k ox m
  else
    loop2 (fun ix iy mm => stepNeg dh11 dh21 dh12 dh22 (xptr + 8 * ix) (yptr + 8 * iy) mm)
      sx sy k ox oy m

/-- Run of the kernel loop for the unit-diagonal branch, cut off after `k`
iterations. -/
def runZero (xptr sx ox yptr sy oy pptr : Int) (m : Mem) (k : Nat) : Mem :=
  let dh21 := m (pptr + 16)
  let dh12 := m (pptr + 24)
  if sx = sy ∧ 0 < sx then
    loop1 (fun ix mm => stepZero dh21 dh12 (xptr + 8 * ix) (yptr + 8 * ix) mm) sx k ox m
  else
    loop2 (fun ix iy mm => stepZero dh21 dh12 (xptr + 8 * ix) (yptr + 8 * iy) mm)
      sx sy k ox oy m

/-- Run of the kernel loop for the remaining branch (any flag that is neither
negative nor zero), cut off after `k` iterations. -/
def runOne (xptr sx ox yptr sy oy pptr : Int) (m : Mem) (k : Nat) : Mem :=
  let dh22 := m (pptr + 32)
  let dh11 := m (pptr + 8)
  if sx = sy ∧ 0 < sx then
    loop1 (fun ix mm => stepOne dh11 dh22 (xptr + 8 * ix) (yptr + 8 * ix) mm) sx k ox m
  else
    loop2 (fun ix iy mm => stepOne dh11 dh22 (xptr + 8 * ix) (yptr + 8 * iy) mm)
      sx sy k ox oy m

/-- Per-iteration result function for the scratch-copy reference: both values
are read once into scratch variables, then both cells are overwritten from a
single simultaneous update. -/
def stepRef (fx fy : ℚ → ℚ → ℚ) (ax ay : Int) (m : Mem) : Mem :=
  let w := m ax
  let z := m ay
  fun b => if b = ay then fy w z else if b = ax then fx w z else m b

/-- Reference implementation of the kernel in which every iteration is a
simultaneous two-cell update computed from per-iteration scratch copies of the
pre-update values. -/
def drotmRef (N xptr sx ox yptr sy oy pptr : Int) (m : Mem) : Mem :=
  let dflag := m pptr
  let fx : ℚ → ℚ → ℚ :=
    if dflag < 0 then fun w z => w * m (pptr + 8) + m (pptr + 24) * z
    else if dflag = 0 then fun w z => z * m (pptr + 24) + w
    else fun w z => w * m (pptr + 8) + z
  let fy : ℚ → ℚ → ℚ :=
    if dflag < 0 then fun w z => w * m (pptr + 16) + m (pptr + 32) * z
    else if dflag = 0 then fun w z => z + w * m (pptr + 16)
    else fun w z => z * m (pptr + 32) - w
  if N ≤ 0 then m
  else if dflag = -2 then m
  else if sx = sy ∧ 0 < sx then
    loop1 (fun ix mm => stepRef fx fy (xptr + 8 * ix) (yptr + 8 * ix) mm) sx N.toNat ox m
  else
    loop2 (fun ix iy mm => stepRef fx fy (xptr + 8 * ix) (yptr + 8 * iy) mm) sx sy N.toNat ox oy m

theorem loop1_succ (f : Int → Mem → Mem) (s : Int) :
    ∀ (n : Nat) (ix : Int) (m : Mem),
      loop1 f s (n + 1) ix m = f (ix + (n : Int) * s) (loop1 f s n ix m) := by
  intro n
  induction n with
  | zero => intro ix m; simp [loop1]
  | succ k ih =>
      intro ix m
      rw [show loop1 f s (k + 1 + 1) ix m = loop1 f s (k + 1) (ix + s) (f ix m) from rfl, ih,
        show loop1 f s (k + 1) ix m = loop1 f s k (ix + s) (f ix m) from rfl]
      congr 1
      push_cast
      ring

theorem loop2_succ (f : Int → Int → Mem → Mem) (sx sy : Int) :
    ∀ (n : Nat) (ix iy : Int) (m : Mem),
      loop2 f sx sy (n + 1) ix iy m =
        f (ix + (n : Int) * sx) (iy + (n : Int) * sy) (loop2 f sx sy n ix iy m) := by
  intro n
  induction n with
  | zero => intro ix iy m; simp [loop2]
  | succ k ih =>
      intro ix iy m
      rw [show loop2 f sx sy (k + 1 + 1) ix iy m = loop2 f sx sy (k + 1) (ix + sx) (iy + sy) (f ix iy m) from rfl,
        ih, show loop2 f sx sy (k + 1) ix iy m = loop2 f sx sy k (ix + sx) (iy + sy) (f ix iy m) from rfl]
      congr 2 <;> (push_cast; ring)

theorem stepNeg_at_x (d11 d21 d12 d22 : ℚ) (ax ay : Int) (m : Mem) (h : ax ≠ ay) :
    stepNeg d11 d21 d12 d22 ax ay m ax = m ax * d11 + d12 * m ay := by
  simp [stepNeg, wr, h]

theorem stepNeg_at_y (d11 d21 d12 d22 : ℚ) (ax ay : Int) (m : Mem) :
    stepNeg d11 d21 d12 d22 ax ay m ay = m ax * d21 + d22 * m ay := by
  simp [stepNeg, wr]

theorem stepZero_at_x (d21 d12 : ℚ) (ax ay : Int) (m : Mem) (h : ax ≠ ay) :
    stepZero d21 d12 ax ay m ax = m ay * d12 + m ax := by
  simp [stepZero, wr, h]

theorem stepZero_at_y (d21 d12 : ℚ) (ax ay : Int) (m : Mem) :
    stepZero d21 d12 ax ay m ay = m ay + m ax * d21 := by
  simp [stepZero, wr]

theorem stepOne_at_x (d11 d22 : ℚ) (ax ay : Int) (m : Mem) (h : ax ≠ ay) :
    stepOne d11 d22 ax ay m ax = m ax * d11 + m ay := by
  simp [stepOne, wr, h]

theorem stepOne_at_y (d11 d22 : ℚ) (ax ay : Int) (m : Mem) :
    stepOne d11 d22 ax ay m ay = m ay * d22 - m ax := by
  simp [stepOne, wr]

theorem kernel_noop (N xptr sx ox yptr sy oy pptr : Int) (m : Mem)
    (h : N ≤ 0 ∨ m pptr = -2) :
    c_drotm_ndarray N xptr sx ox yptr sy oy pptr m = m := by
  unfold c_drotm_ndarray
  rcases h with h | h
  · simp [h]
  · by_cases hN : N ≤ 0 <;> simp [h, hN]

theorem kernel_eq_runNeg (N xptr sx ox yptr sy oy pptr : Int) (m : Mem)
    (hN : 0 < N) (hf : m pptr < 0) (hf2 : m pptr ≠ -2) :
    c_drotm_ndarray N xptr sx ox yptr sy oy pptr m =
      runNeg xptr sx ox yptr sy oy pptr m N.toNat := by
  unfold c_drotm_ndarray runNeg
  simp [not_le.mpr hN, hf, hf2]

theorem kernel_eq_runZero (N xptr sx ox yptr sy oy pptr : Int) (m : Mem)
    (hN : 0 < N) (hf : m pptr = 0) :
    c_drotm_ndarray N xptr sx ox yptr sy oy pptr m =
      runZero xptr sx ox yptr sy oy pptr m N.toNat := by
  unfold c_drotm_ndarray runZero
  simp [not_le.mpr hN, hf]

theorem kernel_eq_runOne (N xptr sx ox yptr sy oy pptr : Int) (m : Mem)
    (hN : 0 < N) (hf : 0 < m pptr) :
    c_drotm_ndarray N xptr sx ox yptr sy oy pptr m =
      runOne xptr sx ox yptr sy oy pptr m N.toNat := by
  have h2 : m pptr ≠ -2 := by
    intro hh
    rw [hh] at hf
    norm_num at hf
  have h3 : ¬ m pptr < 0 := not_lt.mpr (le_of_lt hf)
  have h4 : m pptr ≠ 0 := ne_of_gt hf
  unfold c_drotm_ndarray runOne
  simp [not_le.mpr hN, h2, h3, h4]

theorem runNeg_succ (xptr sx ox yptr sy oy pptr : Int) (m : Mem) (k : Nat) :
    runNeg xptr sx ox yptr sy oy pptr m (k + 1) =
      stepNeg (m (pptr + 8)) (m (pptr + 16)) (m (pptr + 24)) (m (pptr + 32))
        (xaddrAt xptr sx ox k) (yaddrAt sx ox yptr sy oy k)
        (runNeg xptr sx ox yptr sy oy pptr m k) := by
  unfold runNeg xaddrAt yaddrAt
  by_cases hf : sx = sy ∧ 0 < sx
  · obtain ⟨h1, h2⟩ := hf
    subst h1
    simp [h2, loop1_succ]
  · simp [hf, loop2_succ]

theorem runZero_succ (xptr sx ox yptr sy oy pptr : Int) (m : Mem) (k : Nat) :
    runZero xptr sx ox yptr sy oy pptr m (k + 1) =
      stepZero (m (pptr + 16)) (m (pptr + 24))
        (xaddrAt xptr sx ox k) (yaddrAt sx ox yptr sy oy k)
        (runZero xptr sx ox yptr sy oy pptr m k) := by
  unfold runZero xaddrAt yaddrAt
  by_cases hf : sx = sy ∧ 0 < sx
  · obtain ⟨h1, h2⟩ := hf
    subst h1
    simp [h2, loop1_succ]
  · simp [hf, loop2_succ]

theorem runOne_succ (xptr sx ox yptr sy oy pptr : Int) (m : Mem) (k : Nat) :
    runOne xptr sx ox yptr sy oy pptr m (k + 1) =
      stepOne (m (pptr + 8)) (m (pptr + 32))
        (xaddrAt xptr sx ox k) (yaddrAt sx ox yptr sy oy k)
        (runOne xptr sx ox yptr sy oy pptr m k) := by
  unfold runOne xaddrAt yaddrAt
  by_cases hf : sx = sy ∧ 0 < sx
  · obtain ⟨h1, h2⟩ := hf
    subst h1
    simp [h2, loop1_succ]
  · simp [hf, loop2_succ]

theorem stride2offset_eq_spec (N s : Int) : stride2offset N s = stride2offsetSpec N s := by
  unfold stride2offset stride2offsetSpec
  rcases lt_trichotomy s 0 with h | h | h
  · simp [le_of_lt h, h]
  · simp [h]
  · simp [not_le.mpr h, not_lt.mpr (le_of_lt h)]

theorem stepNeg_eq_ref (d11 d21 d12 d22 : ℚ) (ax ay : Int) (m : Mem) :
    stepNeg d11 d21 d12 d22 ax ay m =
      stepRef (fun w z => w * d11 + d12 * z) (fun w z => w * d21 + d22 * z) ax ay m := rfl

theorem stepZero_eq_ref (d21 d12 : ℚ) (ax ay : Int) (m : Mem) :
    stepZero d21 d12 ax ay m =
      stepRef (fun w z => z * d12 + w) (fun w z => z + w * d21) ax ay m := rfl

theorem stepOne_eq_ref (d11 d22 : ℚ) (ax ay : Int) (m : Mem) :
    stepOne d11 d22 ax ay m =
      stepRef (fun w z => w * d11 + z) (fun w z => z * d22 - w) ax ay m := rfl

/-- Concrete memory holding the doc-example data: `x = [1,2,3,4,5]` at byte 0,
`y = [1,1,1,1,1]` at byte 800, `param = [0,0,2,-3,0]` at byte 1600. -/
def demoMem : Mem :=
  writeList (writeList (writeList zeroMem 0 [1, 2, 3, 4, 5]) 800 [1, 1, 1, 1, 1])
    1600 [0, 0, 2, -3, 0]

/-- Concrete memory exhibiting the fast-path addressing: `x = [1]` at byte 0,
`y = [7, 5]` at byte 800, `param = [0, 0, 2, -3, 0]` at byte 1600. -/
def cexMem : Mem := fun a =>
  if a = 0 then 1
  else if a = 800 then 7
  else if a = 808 then 5
  else if a = 1616 then 2
  else if a = 1624 then -3
  else 0

/-- Concrete memory with flag -1: `x = [10]` at byte 0, `y = [20]` at byte
800, `param = [-1, 2, 3, 4, 5]` at byte 1600. -/
def mC1 : Mem := fun a =>
  if a = 0 then 10
  else if a = 800 then 20
  else if a = 1600 then -1
  else if a = 1608 then 2
  else if a = 1616 then 3
  else if a = 1624 then 4
  else if a = 1632 then 5
  else 0

/-- Concrete memory with the unrecognized negative flag -7 and the same data
layout as `mC1`. -/
def mC10 : Mem := fun a =>
  if a = 0 then 10
  else if a = 800 then 20
  else if a = 1600 then -7
  else if a = 1608 then 2
  else if a = 1616 then 3
  else if a = 1624 then 4
  else if a = 1632 then 5
  else 0

/-- C1: for every call with `N > 0` and flag exactly -1, 0 or 1, each
iteration `i` updates the two cells it addresses from their pre-update values
`w` and `z`: flag -1 stores `w*h11 + z*h12` into the `x` cell and
`w*h21 + z*h22` into the `y` cell; flag 0 stores `w + z*h12` and `w*h21 + z`;
flag 1 stores `w*h11 + z` and `z*h22 - w`; here `h11, h21, h12, h22` are
`param[1..4]` and the kernel run is the corresponding cut-off loop. -/
theorem drotm_iteration_update_formulas
    (N xptr sx ox yptr sy oy pptr : Int) (m : Mem) (i : Nat)
    (hN : 0 < N) (hi : i < N.toNat)
    (hsep : xaddrAt xptr sx ox i ≠ yaddrAt sx ox yptr sy oy i) :
    (m pptr = -1 →
      c_drotm_ndarray N xptr sx ox yptr sy oy pptr m =
        runNeg xptr sx ox yptr sy oy pptr m N.toNat ∧
      runNeg xptr sx ox yptr sy oy pptr m (i + 1) (xaddrAt xptr sx ox i) =
        runNeg xptr sx ox yptr sy oy pptr m i (xaddrAt xptr sx ox i) * m (pptr + 8) +
          runNeg xptr sx ox yptr sy oy pptr m i (yaddrAt sx ox yptr sy oy i) * m (pptr + 24) ∧
      runNeg xptr sx ox yptr sy oy pptr m (i + 1) (yaddrAt sx ox yptr sy oy i) =
        runNeg xptr sx ox yptr sy oy pptr m i (xaddrAt xptr sx ox i) * m (pptr + 16) +
          runNeg xptr sx ox yptr sy oy pptr m i (yaddrAt sx ox yptr sy oy i) * m (pptr + 32)) ∧
    (m pptr = 0 →
      c_drotm_ndarray N xptr sx ox yptr sy oy pptr m =
        runZero xptr sx ox yptr sy oy pptr m N.toNat ∧
      runZero xptr sx ox yptr sy oy pptr m (i + 1) (xaddrAt xptr sx ox i) =
        runZero xptr sx ox yptr sy oy pptr m i (xaddrAt xptr sx ox i) +
          runZero xptr sx ox yptr sy oy pptr m i (yaddrAt sx ox yptr sy oy i) * m (pptr + 24) ∧
      runZero xptr sx ox yptr sy oy pptr m (i + 1) (yaddrAt sx ox yptr sy oy i) =
        runZero xptr sx ox yptr sy oy pptr m i (xaddrAt xptr sx ox i) * m (pptr + 16) +
          runZero xptr sx ox yptr sy oy pptr m i (yaddrAt sx ox yptr sy oy i)) ∧
    (m pptr = 1 →
      c_drotm_ndarray N xptr sx ox yptr sy oy pptr m =
        runOne xptr sx ox yptr sy oy pptr m N.toNat ∧
      runOne xptr sx ox yptr sy oy pptr m (i + 1) (xaddrAt xptr sx ox i) =
        runOne xptr sx ox yptr sy oy pptr m i (xaddrAt xptr sx ox i) * m (pptr + 8) +
          runOne xptr sx ox yptr sy oy pptr m i (yaddrAt sx ox yptr sy oy i) ∧
      runOne xptr sx ox yptr sy oy pptr m (i + 1) (yaddrAt sx ox yptr sy oy i) =
        runOne xptr sx ox yptr sy oy pptr m i (yaddrAt sx ox yptr sy oy i) * m (pptr + 32) -
          runOne xptr sx ox yptr sy oy pptr m i (xaddrAt xptr sx ox i)) := by
  refine ⟨fun hf => ?_, fun hf => ?_, fun hf => ?_⟩
  · have hlt : m pptr < 0 := by rw [hf]; norm_num
    have hne : m pptr ≠ -2 := by rw [hf]; norm_num
    refine ⟨kernel_eq_runNeg N xptr sx ox yptr sy oy pptr m hN hlt hne, ?_, ?_⟩
    · rw [runNeg_succ, stepNeg_at_x _ _ _ _ _ _ _ hsep]
      ring
    · rw [runNeg_succ, stepNeg_at_y]
      ring
  · refine ⟨kernel_eq_runZero N xptr sx ox yptr sy oy pptr m hN hf, ?_, ?_⟩
    · rw [runZero_succ, stepZero_at_x _ _ _ _ _ hsep]
      ring
    · rw [runZero_succ, stepZero_at_y]
      ring
  · have hgt : 0 < m pptr := by rw [hf]; norm_num
    refine ⟨kernel_eq_runOne N xptr sx ox yptr sy oy pptr m hN hgt, ?_, ?_⟩
    · rw [runOne_succ, stepOne_at_x _ _ _ _ _ hsep]
    · rw [runOne_succ, stepOne_at_y]

/-- Witness for the iteration-formula theorem: `N = 1`, iteration 0, flag -1,
data from `mC1`. -/
theorem drotm_iteration_update_formulas_witness :
    (0 : Int) < 1 ∧ (0 : Nat) < (1 : Int).toNat ∧
    xaddrAt 0 1 0 0 ≠ yaddrAt 1 0 800 1 0 0 ∧
    mC1 1600 = -1 ∧
    (c_drotm_ndarray 1 0 1 0 800 1 0 1600 mC1 =
        runNeg 0 1 0 800 1 0 1600 mC1 (1 : Int).toNat ∧
      runNeg 0 1 0 800 1 0 1600 mC1 (0 + 1) (xaddrAt 0 1 0 0) =
        runNeg 0 1 0 800 1 0 1600 mC1 0 (xaddrAt 0 1 0 0) * mC1 (1600 + 8) +
          runNeg 0 1 0 800 1 0 1600 mC1 0 (yaddrAt 1 0 800 1 0 0) * mC1 (1600 + 24) ∧
      runNeg 0 1 0 800 1 0 1600 mC1 (0 + 1) (yaddrAt 1 0 800 1 0 0) =
        runNeg 0 1 0 800 1 0 1600 mC1 0 (xaddrAt 0 1 0 0) * mC1 (1600 + 16) +
          runNeg 0 1 0 800 1 0 1600 mC1 0 (yaddrAt 1 0 800 1 0 0) * mC1 (1600 + 32)) :=
  ⟨by decide, by decide, by decide, by decide,
   (drotm_iteration_update_formulas 1 0 1 0 800 1 0 1600 mC1 0
     (by decide) (by decide) (by decide)).1 (by decide)⟩

/-- C2: with `N <= 0` (including `N = 0` and negative `N`), or with
`param[0] = -2` regardless of `N` and of the other parameter entries, both
module methods leave memory completely unchanged and still complete, returning
the `y` handle. -/
theorem drotm_noop_guard (N xptr sx ox yptr sy oy pptr : Int) (m : Mem)
    (h : N ≤ 0 ∨ m pptr = -2) :
    moduleNdarray N xptr sx ox yptr sy oy pptr m = (m, yptr) ∧
    moduleMain N xptr sx yptr sy pptr m = (m, yptr) := by
  unfold moduleNdarray moduleMain c_drotm
  rw [kernel_noop _ _ _ _ _ _ _ _ _ h, kernel_noop _ _ _ _ _ _ _ _ _ h]
  exact ⟨rfl, rfl⟩

/-- Witness for the no-op guard at `N = -3` on `cexMem`. -/
theorem drotm_noop_guard_witness :
    ((-3 : Int) ≤ 0 ∨ cexMem 1600 = -2) ∧
    moduleNdarray (-3) 0 1 0 800 1 1 1600 cexMem = (cexMem, 800) ∧
    moduleMain (-3) 0 1 800 1 1600 cexMem = (cexMem, 800) :=
  ⟨Or.inl (by decide),
   (drotm_noop_guard (-3) 0 1 0 800 1 1 1600 cexMem (Or.inl (by decide))).1,
   (drotm_noop_guard (-3) 0 1 0 800 1 1 1600 cexMem (Or.inl (by decide))).2⟩

/-- C3: evaluation of the kernel at `N = 1`, `strideX = strideY = 1`,
`offsetX = 0`, `offsetY = 1` on `cexMem` (`x = [1]`, `y = [7, 5]`, flag 0,
`h21 = 2`, `h12 = -3`).  The claimed `y` address `yptr + 8*(offsetY + 0) = 808`
is left unchanged at 5 (the claimed update would store `1*2 + 5 = 7` there),
while the cell at 800 = `yptr + 8*offsetX`, which the claimed addressing never
writes, changes from 7 to 9: the fast path drives `y` with the `x` index. -/
theorem drotm_fastpath_ignores_offsetY :
    c_drotm_ndarray 1 0 1 0 800 1 1 1600 cexMem 808 = 5 ∧
    cexMem 808 = 5 ∧
    c_drotm_ndarray 1 0 1 0 800 1 1 1600 cexMem 800 = 9 ∧
    cexMem 800 = 7 ∧
    ((1 : ℚ) * 2 + 5 ≠ 5) := by
  norm_num [c_drotm_ndarray, cexMem, stepZero, wr, loop1]

/-- C4: the stride-only export equals the explicit-offset export with default
offsets given by the spec rule: 0 for a nonnegative stride and
`(1 - N) * stride` for a negative stride -- for every input memory, so both
produce identical final contents of `x` and `y`. -/
theorem drotm_main_eq_ndarray_default_offsets (N xptr sx yptr sy pptr : Int) (m : Mem) :
    c_drotm N xptr sx yptr sy pptr m =
      c_drotm_ndarray N xptr sx (stride2offsetSpec N sx) yptr sy (stride2offsetSpec N sy)
        pptr m := by
  unfold c_drotm
  rw [stride2offset_eq_spec, stride2offset_eq_spec]

/-- C5: on every memory -- in particular when `x` and `y` are views into the
same buffer -- the kernel coincides with the scratch-copy reference
implementation, whose every iteration reads the pre-update values `w` and `z`
into scratch variables and then performs one simultaneous two-cell update
computed solely from them. -/
theorem drotm_eq_scratch_reference (N xptr sx ox yptr sy oy pptr : Int) (m : Mem) :
    c_drotm_ndarray N xptr sx ox yptr sy oy pptr m =
      drotmRef N xptr sx ox yptr sy oy pptr m := by
  unfold c_drotm_ndarray drotmRef
  by_cases h0 : N ≤ 0
  · simp [h0]
  · by_cases h2 : m pptr = -2
    · simp [h0, h2]
    · rcases lt_trichotomy (m pptr) 0 with hlt | heq | hgt
      · simp only [h0, h2, hlt, if_true, if_false, if_neg, if_pos]
        rfl
      · have h3 : ¬ m pptr < 0 := by rw [heq]; norm_num
        simp only [h0, h2, heq, h3]
        rfl
      · have h3 : ¬ m pptr < 0 := not_lt.mpr (le_of_lt hgt)
        have h4 : ¬ m pptr = 0 := ne_of_gt hgt
        simp only [h0, h2, h3, h4]
        rfl

set_option maxHeartbeats 1600000 in
/-- C6: the documented concrete scenario: `N = 5`, `x = [1,2,3,4,5]`,
`y = [1,1,1,1,1]`, `param = [0,0,2,-3,0]`, unit strides and zero offsets give
`x = [-2,-1,0,1,2]` and `y = [3,5,7,9,11]`, through the array-level `ndarray`
form and through the stride-only export alike. -/
theorem drotm_concrete_scenario :
    (routineNdarray 5 [1, 2, 3, 4, 5] 1 0 [1, 1, 1, 1, 1] 1 0 [0, 0, 2, -3, 0]).xOut
        = [-2, -1, 0, 1, 2] ∧
    (routineNdarray 5 [1, 2, 3, 4, 5] 1 0 [1, 1, 1, 1, 1] 1 0 [0, 0, 2, -3, 0]).yOut
        = [3, 5, 7, 9, 11] ∧
    readList (c_drotm 5 0 1 800 1 1600 demoMem) 0 5 = [-2, -1, 0, 1, 2] ∧
    readList (c_drotm 5 0 1 800 1 1600 demoMem) 800 5 = [3, 5, 7, 9, 11] := by
  norm_num [routineNdarray, c_drotm, c_drotm_ndarray, stride2offset, demoMem, stepZero, wr,
    loop1, loop2, writeList, readList, zeroMem, List.take]

/-- C7: every call form hands back the second vector: both module methods
return the `yptr` byte offset they were passed, unconditionally (so also in
the `N <= 0` and flag -2 no-op cases), and the array-level form returns the
mutated `y` array. -/
theorem drotm_returns_y_handle :
    (∀ N xptr sx ox yptr sy oy pptr : Int, ∀ m : Mem,
      (moduleNdarray N xptr sx ox yptr sy oy pptr m).2 = yptr) ∧
    (∀ N xptr sx yptr sy pptr : Int, ∀ m : Mem,
      (moduleMain N xptr sx yptr sy pptr m).2 = yptr) ∧
    (∀ N : Int, ∀ x : List ℚ, ∀ sx ox : Int, ∀ y : List ℚ, ∀ sy oy : Int, ∀ p : List ℚ,
      (routineNdarray N x sx ox y sy oy p).ret = (routineNdarray N x sx ox y sy oy p).yOut) :=
  ⟨fun _ _ _ _ _ _ _ _ _ => rfl, fun _ _ _ _ _ _ _ => rfl, fun _ _ _ _ _ _ _ _ => rfl⟩

/-- C8: on `cexMem`, processing the logical elements (`N = 1`, `x` at offset
0, `y` at offset 1) with positive unit strides and then with the reversed
descriptors (strides -1, offsets at the logically last elements: `x` offset 0,
`y` offset 1) touches different `y` addresses and produces different final
buffer contents: the forward call takes the fast path and leaves the cell at
byte 808 unchanged at 5, while the reversed call (general path) stores 7
there. -/
theorem drotm_reverse_traversal_mismatch :
    c_drotm_ndarray 1 0 1 0 800 1 1 1600 cexMem 808 = 5 ∧
    c_drotm_ndarray 1 0 (-1) 0 800 (-1) 1 1600 cexMem 808 = 7 ∧
    c_drotm_ndarray 1 0 1 0 800 1 1 1600 cexMem 800 = 9 ∧
    c_drotm_ndarray 1 0 (-1) 0 800 (-1) 1 1600 cexMem 800 = 7 ∧
    ((5 : ℚ) ≠ 7) := by
  norm_num [c_drotm_ndarray, cexMem, stepZero, wr, loop1, loop2]

/-- C9 (counterexample): a call whose `param` has six elements, not five,
completes normally and mutates `x` and `y`; no error of any kind is signaled
before or instead of the mutation. -/
theorem drotm_param_length_not_validated :
    (routineNdarray 1 [1] 1 0 [2] 1 0 [0, 0, 2, -3, 0, 99]).xOut = [-5] ∧
    (routineNdarray 1 [1] 1 0 [2] 1 0 [0, 0, 2, -3, 0, 99]).yOut = [4] ∧
    (([-5] : List ℚ) ≠ [1]) := by
  norm_num [routineNdarray, c_drotm_ndarray, stepZero, wr, loop1, loop2,
    writeList, readList, zeroMem, List.take]

/-- C9 (amended): the operation performs no `param` length validation at all:
it uses exactly the first five values at the `param` location, so any call
behaves identically to the same call with `param` truncated to five elements,
and always completes. -/
theorem drotm_param_uses_first_five (N : Int) (x : List ℚ) (sx ox : Int) (y : List ℚ)
    (sy oy : Int) (p : List ℚ) :
    routineNdarray N x sx ox y sy oy p = routineNdarray N x sx ox y sy oy (p.take 5) := by
  unfold routineNdarray
  rw [List.take_take, min_self]

/-- C10: for `N > 0` the kernel accepts every flag value and selects the
branch by sign alone: any negative flag other than exactly -2 runs the
full-matrix loop, flag 0 runs the unit-diagonal loop, and any positive flag
runs the flag-1 loop; no input is rejected. -/
theorem drotm_flag_branch_selection (N xptr sx ox yptr sy oy pptr : Int) (m : Mem)
    (hN : 0 < N) :
    (m pptr < 0 → m pptr ≠ -2 →
      c_drotm_ndarray N xptr sx ox yptr sy oy pptr m =
        runNeg xptr sx ox yptr sy oy pptr m N.toNat) ∧
    (m pptr = 0 →
      c_drotm_ndarray N xptr sx ox yptr sy oy pptr m =
        runZero xptr sx ox yptr sy oy pptr m N.toNat) ∧
    (0 < m pptr →
      c_drotm_ndarray N xptr sx ox yptr sy oy pptr m =
        runOne xptr sx ox yptr sy oy pptr m N.toNat) :=
  ⟨fun h1 h2 => kernel_eq_runNeg N xptr sx ox yptr sy oy pptr m hN h1 h2,
   fun h1 => kernel_eq_runZero N xptr sx ox yptr sy oy pptr m hN h1,
   fun h1 => kernel_eq_runOne N xptr sx ox yptr sy oy pptr m hN h1⟩

/-- Witness for the branch-selection theorem: the unrecognized flag -7 in
`mC10` is processed with the full-matrix loop. -/
theorem drotm_flag_branch_selection_witness :
    (0 : Int) < 1 ∧ mC10 1600 < 0 ∧ mC10 1600 ≠ -2 ∧
    c_drotm_ndarray 1 0 1 0 800 1 0 1600 mC10 =
      runNeg 0 1 0 800 1 0 1600 mC10 (1 : Int).toNat :=
  ⟨by decide, by decide, by decide,
   (drotm_flag_branch_selection 1 0 1 0 800 1 0 1600 mC10 (by decide)).1
     (by decide) (by decide)⟩
